import Mathlib

/-!
# Verification of the mdwikify wiki generator

A shallow embedding of `mdwikify.py` (a ~256-line Python script that turns a
directory tree of Markdown files into a static MDwiki site) together with
proofs about its Markdown classifier, titlifier, index generator, tree
walker / navigation builder and navigation renderer.

Conventions of the embedding:
* A filesystem is modelled as a tree of entries (`FSEntry`): regular files
  carry their name, directories carry their name and the list of their
  children in filesystem enumeration order (the order `os.listdir`/`os.walk`
  yields them).  Entry names are bare names (no path separator), as returned
  by `os.listdir`.  `os.sep` is modelled as `/` (the script is exercised on
  POSIX systems).
* Python strings are Lean `String`s; character-level Python operations
  (`str.title`, `os.path.splitext`, `str.split`) are embedded on `String.data`
  with ASCII semantics, which covers the script's inputs.
* For the error-handling claims a second tree type `FSEntryE` adds a
  readability flag to directories, and the classifier is re-embedded with an
  explicit error monad (`Except PyErr`) mirroring Python's exception
  behaviour, including `os.walk`'s default `onerror=None` (read errors during
  the walk are swallowed and the unreadable subtree is skipped).
-/

/-! ## Python string primitives -/

/-- "Cased character" in the ASCII model: a letter `A`-`Z` (code points
65-90) or `a`-`z` (97-122). -/
def pyCased (c : Char) : Bool :=
  (65 ≤ c.toNat && c.toNat ≤ 90) || (97 ≤ c.toNat && c.toNat ≤ 122)

/-- Upper-casing of one character (ASCII model). -/
def pyToUpper (c : Char) : Char :=
  if 97 ≤ c.toNat && c.toNat ≤ 122 then Char.ofNat (c.toNat - 32) else c

/-- Lower-casing of one character (ASCII model). -/
def pyToLower (c : Char) : Char :=
  if 65 ≤ c.toNat && c.toNat ≤ 90 then Char.ofNat (c.toNat + 32) else c

/-- `str.title()` for one character position: Python upper-cases a cased
character that follows an uncased character and lower-cases a cased character
that follows a cased one (so word boundaries fall at every uncased character,
not only at whitespace).  The `prevCased` flag records whether the previous
character was cased. -/
def pyTitleChars : Bool → List Char → List Char
  | _, [] => []
  | prevCased, c :: cs =>
    if pyCased c then
      (if prevCased then pyToLower c else pyToUpper c) :: pyTitleChars true cs
    else
      c :: pyTitleChars false cs

/-- Python `s.title()` (ASCII model). -/
def pyTitle (s : String) : String := ⟨pyTitleChars false s.data⟩

/-- One step of `str.replace('_', ' ')`. -/
def replUnderscore (c : Char) : Char := if c = '_' then ' ' else c

/-- Python `s.replace('_', ' ')`. -/
def replaceUnderscores (s : String) : String := ⟨s.data.map replUnderscore⟩

/-- `titlify` from the source: `return dir.title().replace('_',' ')`. -/
def titlify (dir : String) : String := replaceUnderscores (pyTitle dir)

/-- Index (0-based) of the last `'.'` of a character list, if any. -/
def lastDotIdx : List Char → Option Nat
  | [] => none
  | c :: cs =>
    match lastDotIdx cs with
    | some i => some (i + 1)
    | none => if c = '.' then some 0 else none

/-- The stem part of Python `os.path.splitext(p)[0]` for a bare file name:
the name is cut at its last dot, except that a name whose characters before
the last dot are all dots (e.g. `.md`, `..md`) has no extension. -/
def splitextStem (s : String) : String :=
  match lastDotIdx s.data with
  | none => s
  | some i => if (s.data.take i).all (· = '.') then s else ⟨s.data.take i⟩

/-- Python `s.split(sep)` for a one-character separator, on character lists:
splits at every occurrence, keeping empty pieces (`''.split('/') = ['']`). -/
def pySplitChar (sep : Char) : List Char → List Char → List (List Char)
  | [], acc => [acc.reverse]
  | c :: cs, acc =>
    if c = sep then acc.reverse :: pySplitChar sep cs []
    else pySplitChar sep cs (c :: acc)

/-- Python `os.path.basename` for POSIX: the part after the last `/`. -/
def pyBasename (s : String) : String :=
  ⟨(pySplitChar '/' s.data []).getLastD []⟩

/-! ## Script constants (lines 28-33 of the source) -/

def wiki_title : String := "My Wiki"

def default_theme : String := "bootstrap"

def mdwiki_filenames : List String :=
  ["mdwiki.html", "mdwiki-slim.html", "mdwiki-debug.html",
   "index.html", wiki_title ++ ".html"]

def included_md_files : List String := ["README.md", "navigation.md", "index.md"]

/-! ## Filesystem model -/

/-- A filesystem entry: a regular file with its name, or a directory with its
name and children in filesystem enumeration order. -/
inductive FSEntry : Type where
  | file : String → FSEntry
  | dir : String → List FSEntry → FSEntry

/-- The name of an entry (what `os.listdir` of its parent reports). -/
def FSEntry.name : FSEntry → String
  | .file n => n
  | .dir n _ => n

/-- `os.path.isdir` on an entry. -/
def FSEntry.isDir : FSEntry → Bool
  | .file _ => false
  | .dir _ _ => true

/-- `path.endswith('.md')` on a bare entry name.  (For a child name `n`
joined to a path `p`, `(p ++ "/" ++ n).endswith(".md")` holds iff
`n.endswith(".md")`, since `n` contains no separator.) -/
def is_md_name (s : String) : Bool := ['.', 'm', 'd'].isSuffixOf s.data

/-- `is_md_file` from the source:
`os.path.isfile(path) and path.endswith('.md')`. -/
def is_md_file : FSEntry → Bool
  | .file n => is_md_name n
  | .dir _ _ => false

/-! `os.walk(path)` yields `(root, dirs, files)` triples top-down, recursing
into the sub-directories of each yielded directory in enumeration order.
`is_md_dir(path, recursive=True)` only reads the `files` component of each
triple, so the walk is embedded as the list of those components. -/

/-- The names of the non-directory children, in enumeration order: the
`files` component of one `os.walk` triple. -/
def topFileNames (cs : List FSEntry) : List String :=
  cs.filterMap fun e => match e with
    | .file n => some n
    | .dir _ _ => none

mutual

/-- The `files` component of each `os.walk` triple under an entry, in walk
order (a non-directory yields no triples). -/
def walkFiles : FSEntry → List (List String)
  | .file _ => []
  | .dir _ cs => topFileNames cs :: walkFilesList cs

/-- `os.walk`'s recursion into the children, in enumeration order. -/
def walkFilesList : List FSEntry → List (List String)
  | [] => []
  | e :: es => walkFiles e ++ walkFilesList es

end

/-- `is_md_dir` from the source, restricted to directory inputs (the `assert
os.path.isdir(path)` precondition; the failure behaviour is embedded
separately below).  Recursive mode scans the files of every `os.walk` triple;
non-recursive mode scans `os.listdir`. -/
def is_md_dir (recursive : Bool) (e : FSEntry) : Bool :=
  match recursive with
  | true => (walkFiles e).any fun files => files.any is_md_name
  | false =>
    match e with
    | .file _ => false
    | .dir _ cs => cs.any is_md_file

/-! The property claimed for the recursive classifier: the subtree contains at
least one file classified by `is_md_file`.  (Stated from the specification, to
be compared with the walk-based source embedding.) -/

mutual

/-- Specification predicate: some file in the subtree is a Markdown file. -/
def hasMdFile : FSEntry → Bool
  | .file n => is_md_name n
  | .dir _ cs => hasMdFileList cs

/-- Specification predicate on a list of children. -/
def hasMdFileList : List FSEntry → Bool
  | [] => false
  | e :: es => hasMdFile e || hasMdFileList es

end

/-! ### Helper lemmas for the classifier -/

theorem walkFilesList_append (l₁ l₂ : List FSEntry) :
    walkFilesList (l₁ ++ l₂) = walkFilesList l₁ ++ walkFilesList l₂ := by
  induction l₁ with
  | nil => simp [walkFilesList]
  | cons e es ih => simp [walkFilesList, ih]

theorem walk_md_eq_hasMd (cs : List FSEntry) :
    ((topFileNames cs).any is_md_name
      || (walkFilesList cs).any fun files => files.any is_md_name)
      = hasMdFileList cs := by
  match cs with
  | [] => simp [topFileNames, walkFilesList, hasMdFileList]
  | .file m :: es =>
    have ih := walk_md_eq_hasMd es
    simp only [topFileNames, List.filterMap_cons, walkFilesList, walkFiles,
      List.nil_append, hasMdFileList, hasMdFile, List.any_cons] at *
    rw [Bool.or_assoc, ih]
  | .dir m gcs :: es =>
    have ih₁ := walk_md_eq_hasMd gcs
    have ih₂ := walk_md_eq_hasMd es
    simp only [topFileNames, List.filterMap_cons, walkFilesList, walkFiles,
      hasMdFileList, hasMdFile, List.any_cons, List.any_append] at *
    rw [← ih₁, ← ih₂]
    ac_rfl
termination_by sizeOf cs

theorem is_md_dir_rec_eq_hasMd (n : String) (cs : List FSEntry) :
    is_md_dir true (.dir n cs) = hasMdFileList cs := by
  rw [← walk_md_eq_hasMd]
  simp [is_md_dir, walkFiles]

/-- Claim C1: `is_md_dir(d, recursive=True)` is true iff the subtree rooted at
`d` contains at least one file classified by `is_md_file` (hence false for an
empty directory or one with only non-Markdown files), and in non-recursive
mode it is true iff some direct child of `d` is a Markdown file. -/
theorem claim_C1_is_md_dir_classification (n : String) (cs : List FSEntry) :
    (is_md_dir true (.dir n cs) = true ↔ hasMdFile (.dir n cs) = true)
    ∧ (is_md_dir false (.dir n cs) = true ↔ ∃ e ∈ cs, is_md_file e = true) := by
  constructor
  · rw [is_md_dir_rec_eq_hasMd]
    show _ ↔ hasMdFileList cs = true
    exact Iff.rfl
  · simp [is_md_dir, List.any_eq_true]

/-! ## Index generator (`create_index`, source lines 58-91) -/

/-- Python's `s1 <= s2` on strings, at character-list level: lexicographic by
code point, case-sensitive; a proper prefix sorts first. -/
def lexLe : List Char → List Char → Bool
  | [], _ => true
  | _ :: _, [] => false
  | a :: as, b :: bs => if a < b then true else if b < a then false else lexLe as bs

/-- Python's `s1 <= s2` on strings. -/
def pyStrLe (a b : String) : Bool := lexLe a.data b.data

/-- The ordering relation of Python's string sort, as a proposition. -/
def pyLeRel (a b : String) : Prop := pyStrLe a b = true

instance pyLeRel.decidableRel : DecidableRel pyLeRel := fun a b =>
  inferInstanceAs (Decidable (pyStrLe a b = true))

/-- Python `list.sort()` on strings: lexicographic (by code point),
case-sensitive, ascending.  Python's sort is a stable ascending sort; on a
list of strings the result is the unique sorted permutation (equal elements
are identical strings), so any correct sort computes it; insertion sort is
used because it reduces in the kernel. -/
def pySortStrings (l : List String) : List String :=
  l.insertionSort pyLeRel

theorem lexLe_total (as bs : List Char) :
    lexLe as bs = true ∨ lexLe bs as = true := by
  induction as generalizing bs with
  | nil => left; rfl
  | cons a as ih =>
    cases bs with
    | nil => right; rfl
    | cons b bs =>
      by_cases h1 : a < b
      · left; simp [lexLe, h1]
      · by_cases h2 : b < a
        · right; simp [lexLe, h2]
        · rcases ih bs with h | h
          · left; simp [lexLe, h1, h2, h]
          · right; simp [lexLe, h1, h2, h]

theorem lexLe_trans (as bs cs : List Char) (h1 : lexLe as bs = true)
    (h2 : lexLe bs cs = true) : lexLe as cs = true := by
  induction as generalizing bs cs with
  | nil => rfl
  | cons a as ih =>
    cases bs with
    | nil => simp [lexLe] at h1
    | cons b bs =>
      cases cs with
      | nil => simp [lexLe] at h2
      | cons c cs =>
        by_cases hab : a < b
        · by_cases hbc : b < c
          · simp [lexLe, lt_trans hab hbc]
          · by_cases hcb : c < b
            · simp [lexLe, hbc, hcb] at h2
            · have hbc' : b = c := le_antisymm (not_lt.1 hcb) (not_lt.1 hbc)
              subst hbc'
              simp [lexLe, hab]
        · by_cases hba : b < a
          · simp [lexLe, hab, hba] at h1
          · have hab' : a = b := le_antisymm (not_lt.1 hba) (not_lt.1 hab)
            subst hab'
            simp only [lexLe, if_neg (lt_irrefl a)] at h1
            by_cases hac : a < c
            · simp [lexLe, hac]
            · by_cases hca : c < a
              · simp [lexLe, hac, hca] at h2
              · have hac' : a = c := le_antisymm (not_lt.1 hca) (not_lt.1 hac)
                subst hac'
                simp only [lexLe, if_neg (lt_irrefl a)] at h2 ⊢
                exact ih bs cs h1 h2

instance pyLeRel.isTotal : IsTotal String pyLeRel :=
  ⟨fun a b => lexLe_total a.data b.data⟩

instance pyLeRel.isTrans : IsTrans String pyLeRel :=
  ⟨fun a b c => lexLe_trans a.data b.data c.data⟩

/-- One rendered Category line:
`fd.write('- ['+titlify(d)+']('+d+'/index.md)\n')`. -/
def categoryLine (d : String) : String :=
  "- [" ++ titlify d ++ "](" ++ d ++ "/index.md)\n"

/-- One rendered Page line:
`base = os.path.basename(f); ftitle = titlify(os.path.splitext(base)[0]);`
`fd.write('- ['+ftitle+']('+f+')\n')`. -/
def pageLine (f : String) : String :=
  "- [" ++ titlify (splitextStem (pyBasename f)) ++ "](" ++ f ++ ")\n"

/-- The `dirlist` accumulated by `create_index`'s enumeration loop:
children that are directories, are recursive Markdown directories, and are
not ignored (in enumeration order; sorted later). -/
def create_index_dirlist (cs : List FSEntry) (ignore : List String) : List String :=
  cs.filterMap fun e => match e with
    | .dir n gcs =>
      if is_md_dir true (.dir n gcs) && !(ignore.contains n) then some n else none
    | .file _ => none

/-- The `filelist` accumulated by `create_index`'s enumeration loop:
children satisfying `is_md_file` and not ignored. -/
def create_index_filelist (cs : List FSEntry) (ignore : List String) : List String :=
  cs.filterMap fun e =>
    if is_md_file e && !(ignore.contains e.name) then some e.name else none

/-- The full text `create_index(path, title, ignore)` writes to
`path/index.md`, as a function of the directory's children `cs`
(`os.listdir(path)`).  Mirrors the write sequence of source lines 76-91. -/
def create_index_content (path : String) (cs : List FSEntry)
    (title : Option String) (ignore : Option (List String)) : String :=
  let t := match title with
    | some t => t
    | none => titlify path
  let ig := match ignore with
    | some l => l
    | none => []
  let dirlist := create_index_dirlist cs ig
  let filelist := create_index_filelist cs ig
  "# " ++ t ++ "\n\n"
    ++ (if dirlist.isEmpty then ""
        else (if filelist.isEmpty then "" else "## Categories\n\n")
          ++ String.join ((pySortStrings dirlist).map categoryLine))
    ++ (if !dirlist.isEmpty && !filelist.isEmpty then "\n## Pages\n\n" else "")
    ++ (if filelist.isEmpty then ""
        else String.join ((pySortStrings filelist).map pageLine))

/-- Modelled from the specification's words for claim C2: a level-1 heading
with the title; when both groups are non-empty, a `Categories` subheading,
the sorted Category lines, a `Pages` subheading, the sorted Page lines; when
only one group is non-empty, only its lines with no subheading; page link
text is `titlify(stem(fileName))` and the target the bare file name. -/
def specIndexRender (title : String) (dirlist filelist : List String) : String :=
  let cats := String.join ((pySortStrings dirlist).map categoryLine)
  let pages := String.join ((pySortStrings filelist).map fun f =>
    "- [" ++ titlify (splitextStem f) ++ "](" ++ f ++ ")\n")
  let header := "# " ++ title ++ "\n\n"
  if !dirlist.isEmpty && !filelist.isEmpty then
    header ++ "## Categories\n\n" ++ cats ++ "\n## Pages\n\n" ++ pages
  else if !dirlist.isEmpty then header ++ cats
  else if !filelist.isEmpty then header ++ pages
  else header

theorem pySplitChar_no_sep (sep : Char) (l acc : List Char) (h : sep ∉ l) :
    pySplitChar sep l acc = [acc.reverse ++ l] := by
  induction l generalizing acc with
  | nil => simp [pySplitChar]
  | cons c cs ih =>
    have hc : ¬ c = sep := fun hcs => h (hcs ▸ List.mem_cons_self c cs)
    rw [pySplitChar, if_neg hc, ih _ (fun hm => h (List.mem_cons_of_mem c hm))]
    simp

theorem pyBasename_no_sep (s : String) (h : '/' ∉ s.data) : pyBasename s = s := by
  rw [pyBasename, pySplitChar_no_sep _ _ _ h]
  rfl

theorem pySortStrings_sorted (l : List String) :
    (pySortStrings l).Pairwise pyLeRel :=
  List.sorted_insertionSort pyLeRel l

theorem pySortStrings_perm (l : List String) : (pySortStrings l).Perm l :=
  List.perm_insertionSort pyLeRel l

theorem pageLines_no_sep (filelist : List String)
    (h : ∀ f ∈ filelist, '/' ∉ f.data) :
    (pySortStrings filelist).map pageLine
      = (pySortStrings filelist).map (fun f =>
          "- [" ++ titlify (splitextStem f) ++ "](" ++ f ++ ")\n") := by
  apply List.map_congr_left
  intro f hf
  have hf' : f ∈ filelist := (pySortStrings_perm filelist).mem_iff.1 hf
  rw [pageLine, pyBasename_no_sep f (h f hf')]

theorem append_merge_categories (r : String) :
    ("\n\n" : String) ++ ("## Categories\n\n" ++ r) = "\n\n## Categories\n\n" ++ r := by
  rw [← String.append_assoc]
  congr 1

/-- Claim C2: `create_index` renders a level-1 heading with the title, then
Category entries sorted by raw directory name (lexicographic, case-sensitive,
ascending, link text `titlify(dirName)`, target `dirName/index.md`), then
Page entries sorted by file name (link text `titlify(stem(fileName))`, target
the file name); the `Categories` and `Pages` subheadings appear only when
both groups are non-empty, and no heading is rendered for an empty group. -/
theorem claim_C2_create_index_render (path title : String) (cs : List FSEntry)
    (ignore : List String)
    (h : ∀ f ∈ create_index_filelist cs ignore, '/' ∉ f.data) :
    create_index_content path cs (some title) (some ignore)
      = specIndexRender title (create_index_dirlist cs ignore)
          (create_index_filelist cs ignore)
    ∧ (pySortStrings (create_index_dirlist cs ignore)).Pairwise pyLeRel
    ∧ (pySortStrings (create_index_dirlist cs ignore)).Perm
        (create_index_dirlist cs ignore)
    ∧ (pySortStrings (create_index_filelist cs ignore)).Pairwise pyLeRel
    ∧ (pySortStrings (create_index_filelist cs ignore)).Perm
        (create_index_filelist cs ignore) := by
  refine ⟨?_, pySortStrings_sorted _, pySortStrings_perm _,
    pySortStrings_sorted _, pySortStrings_perm _⟩
  simp only [create_index_content, specIndexRender]
  rw [pageLines_no_sep _ h]
  by_cases hD : (create_index_dirlist cs ignore).isEmpty
    <;> by_cases hF : (create_index_filelist cs ignore).isEmpty
    <;> simp [hD, hF, String.append_assoc]
  rw [append_merge_categories]

/-! ## Titlifier claims (C6, C7) -/

/-- Modelled from the specification's words for claim C6: title-casing that
capitalizes the first character of each whitespace-delimited word and
lower-cases the rest of the word.  The flag records whether the position
starts a word. -/
def specTitleChars : Bool → List Char → List Char
  | _, [] => []
  | startOfWord, c :: cs =>
    if c.isWhitespace then c :: specTitleChars true cs
    else (if startOfWord then pyToUpper c else pyToLower c) :: specTitleChars false cs

/-- Whitespace-delimited title-casing of a string (specification's words). -/
def specTitlecase (s : String) : String := ⟨specTitleChars true s.data⟩

/-- Claim C6's formula: first replace underscores with spaces, then
title-case whitespace-delimited words. -/
def specTitlify (s : String) : String := specTitlecase (replaceUnderscores s)

theorem pyCased_char_cases (c : Char) (h : pyCased c = true) :
    ∃ n, ((65 ≤ n ∧ n ≤ 90) ∨ (97 ≤ n ∧ n ≤ 122)) ∧ c = Char.ofNat n := by
  refine ⟨c.toNat, ?_, (Char.ofNat_toNat c).symm⟩
  simp only [pyCased, Bool.or_eq_true, Bool.and_eq_true, decide_eq_true_iff] at h
  exact h

theorem pyCased_facts (c : Char) (h : pyCased c = true) :
    replUnderscore (pyToUpper c) = pyToUpper c
    ∧ replUnderscore (pyToLower c) = pyToLower c
    ∧ replUnderscore c = c
    ∧ c.isWhitespace = false := by
  obtain ⟨n, hn, rfl⟩ := pyCased_char_cases c h
  rcases hn with ⟨h1, h2⟩ | ⟨h1, h2⟩ <;> interval_cases n <;> decide

theorem titleChars_agree (l : List Char) (b : Bool)
    (h : ∀ c ∈ l, pyCased c = true ∨ c = '_' ∨ c = ' ') :
    (pyTitleChars b l).map replUnderscore
      = specTitleChars (!b) (l.map replUnderscore) := by
  induction l generalizing b with
  | nil => rfl
  | cons c cs ih =>
    have hcs : ∀ x ∈ cs, pyCased x = true ∨ x = '_' ∨ x = ' ' :=
      fun x hx => h x (List.mem_cons_of_mem c hx)
    rcases h c (List.mem_cons_self c cs) with hc | rfl | rfl
    · obtain ⟨r1, r2, r3, r4⟩ := pyCased_facts c hc
      cases b <;>
        simp [pyTitleChars, specTitleChars, hc, r1, r2, r3, r4, ih true hcs]
    · have h1 : pyCased '_' = false := by decide
      have h2 : replUnderscore '_' = ' ' := by decide
      have h3 : Char.isWhitespace ' ' = true := by decide
      simp [pyTitleChars, specTitleChars, h1, h2, h3, ih false hcs]
    · have h1 : pyCased ' ' = false := by decide
      have h2 : replUnderscore ' ' = ' ' := by decide
      have h3 : Char.isWhitespace ' ' = true := by decide
      simp [pyTitleChars, specTitleChars, h1, h2, h3, ih false hcs]

/-- Claim C6, counterexample: `titlify` title-cases *before* replacing
underscores, with Python's word boundaries at every uncased character, so on
`"foo-bar"` it yields `"Foo-Bar"`, while the claimed
replace-underscores-then-title-case-whitespace-words formula yields
`"Foo-bar"`. -/
theorem claim_C6_counterexample :
    titlify "foo-bar" = "Foo-Bar" ∧ specTitlify "foo-bar" = "Foo-bar"
    ∧ ¬ titlify "foo-bar" = specTitlify "foo-bar" := by
  decide

/-- Claim C6, amended: for names made of letters, underscores and spaces
(every Python word boundary then comes from an underscore or a space),
`titlify(name)` does equal the claimed formula: replace underscores with
spaces, then capitalize the first letter of each whitespace-delimited word
and lower-case the rest.  (In general `titlify` is Python's `str.title`
applied first — word boundaries at every non-letter — followed by the
underscore replacement.) -/
theorem claim_C6_titlify_amended (s : String)
    (h : ∀ c ∈ s.data, pyCased c = true ∨ c = '_' ∨ c = ' ') :
    titlify s = specTitlify s := by
  show replaceUnderscores (pyTitle s) = specTitlecase (replaceUnderscores s)
  rw [replaceUnderscores, pyTitle, specTitlecase, replaceUnderscores]
  exact congrArg String.mk (titleChars_agree s.data false h)

theorem claim_C6_witness :
    (∀ c ∈ ("my_page" : String).data, pyCased c = true ∨ c = '_' ∨ c = ' ')
    ∧ titlify "my_page" = specTitlify "my_page" :=
  ⟨by decide, claim_C6_titlify_amended "my_page" (by decide)⟩

theorem replUnderscore_ne_underscore (c : Char) : replUnderscore c ≠ '_' := by
  rw [replUnderscore]
  by_cases hc : c = '_'
  · rw [if_pos hc]; decide
  · rw [if_neg hc]; exact hc

/-- Claim C7: `titlify` output never contains an underscore;
`titlify("my_page") = "My Page"` and `titlify("") = ""`. -/
theorem claim_C7_titlify_no_underscore (s : String) :
    '_' ∉ (titlify s).data
    ∧ titlify "my_page" = "My Page"
    ∧ titlify "" = "" := by
  refine ⟨?_, by decide, by decide⟩
  show '_' ∉ (replaceUnderscores (pyTitle s)).data
  rw [replaceUnderscores]
  intro hmem
  obtain ⟨c, -, hc⟩ := List.mem_map.1 hmem
  exact replUnderscore_ne_underscore c hc

/-! ## Tree walker and navigation builder (`main`, source lines 203-254) -/

/-- `os.path.join(p, n)` for a bare child name on POSIX. -/
def joinPath (p n : String) : String := p ++ "/" ++ n

/-- `len(dirpath.split(os.sep)) - 1` (source line 222). -/
def depthOf (dirpath : String) : Nat :=
  (pySplitChar '/' dirpath.data []).length - 1

/-- `os.path.isfile(os.path.join(dir, name))`: a file child of that name. -/
def hasFileNamed (name : String) (cs : List FSEntry) : Bool :=
  cs.any fun e => match e with
    | .file n => n == name
    | .dir _ _ => false

/-- The directories of one `os.walk` triple at path `p`, with their children:
the processing sequence of `for d in alldirs` (source line 217). -/
def walkTops (p : String) : List FSEntry → List (String × String × List FSEntry)
  | [] => []
  | .file _ :: es => walkTops p es
  | .dir n gcs :: es => (p, n, gcs) :: walkTops p es

mutual

/-- All `(root, d, children-of-d)` processing steps of
`for root, alldirs, files in os.walk(...): for d in alldirs: ...`, in
iteration order: the current triple's directories first, then the triples of
each subtree in enumeration order.  `os.walk` does not prune: it descends
into every directory. -/
def walkEntry (pe : String) : FSEntry → List (String × String × List FSEntry)
  | .file _ => []
  | .dir _ cs => walkTops pe cs ++ walkChildren pe cs

/-- The walk's recursion into the children of a directory at path `pe`. -/
def walkChildren (pe : String) : List FSEntry → List (String × String × List FSEntry)
  | [] => []
  | e :: es => walkEntry (joinPath pe e.name) e ++ walkChildren pe es

end

/-- The interactive prompt of source line 228. -/
def navPromptDir (d : String) : String :=
  "Add directory " ++ d ++ " as Menu item in Nav panel?"

/-- The navigation entry appended for an accepted depth-1 directory
(source line 231): `'['+title+']('+d+'/index.md)'` with `title = titlify(d)`. -/
def dirNavEntry (d : String) : String :=
  "[" ++ titlify d ++ "](" ++ d ++ "/index.md)"

/-- The body of the walk loop (source lines 217-239) over the processing
steps: skip non-Markdown directories (`continue`); for depth-1 directories
ask the operator and append a navigation entry on acceptance; create
`index.md` (with `title = titlify(d)` and no ignore list) where absent.
Returns the navigation buffer contributions and the `(dirpath, content)`
index writes, in order. -/
def processDirs (askBool : String → Bool) :
    List (String × String × List FSEntry) → List String × List (String × String)
  | [] => ([], [])
  | (root, d, gcs) :: rest =>
    if is_md_dir true (.dir d gcs) then
      let dirpath := joinPath root d
      let pr := processDirs askBool rest
      let buf :=
        if depthOf dirpath == 1 && askBool (navPromptDir d) then
          dirNavEntry d :: pr.1
        else pr.1
      let writes :=
        if !(hasFileNamed "index.md" gcs) then
          (dirpath, create_index_content dirpath gcs (some (titlify d)) none) :: pr.2
        else pr.2
      (buf, writes)
    else processDirs askBool rest

/-- `list_md_files` from the source (lines 158-167): the Markdown files of a
directory that are not in the ignore list (default: `included_md_files`
plus the viewer's asset names), in enumeration order. -/
def list_md_files (cs : List FSEntry) (ignore : Option (List String)) : List String :=
  let ig := match ignore with
    | some l => l
    | none => included_md_files ++ mdwiki_filenames
  cs.filterMap fun e =>
    if is_md_file e && !(ig.contains e.name) then some e.name else none

/-- The interactive prompt of source line 248. -/
def navPromptFile (f : String) : String :=
  "Add " ++ f ++ " as Link in Nav panel?"

/-- The interactive prompt of source line 250. -/
def namePrompt (t : String) : String := "Is name \"" ++ t ++ "\" OK?"

/-- The root-file loop of source lines 246-252: for each root Markdown file,
ask the operator; the default display title is
`os.path.splitext(f)[0].title()`; if the operator rejects the name, use the
string obtained from `input_string('Enter name')`; append `'['+title+'](f)'`. -/
def processRootFiles (askBool : String → Bool) (askString : String → String) :
    List String → List String
  | [] => []
  | f :: rest =>
    if askBool (navPromptFile f) then
      let t0 := pyTitle (splitextStem f)
      let t := if askBool (namePrompt t0) then t0 else askString "Enter name"
      ("[" ++ t ++ "](" ++ f ++ ")") :: processRootFiles askBool askString rest
    else processRootFiles askBool askString rest

/-- `create_navigation` (source lines 93-104): the text written to
`navigation.md`. -/
def create_navigation_content (navlist : List String)
    (title theme : Option String) : String :=
  let t := match title with
    | some x => x
    | none => wiki_title
  let th := match theme with
    | some x => x
    | none => default_theme
  "# " ++ t ++ "\n\n"
    ++ String.join (navlist.map fun item => item ++ "\n")
    ++ "\n[gimmick:Theme (inverse: false)](" ++ th ++ ")\n"
    ++ "[gimmick:ThemeChooser](Change theme)"

/-- The complete navigation buffer of one run (source lines 215-252):
the walk's directory entries, then the root-file entries. -/
def mainWriteBuffer (askBool : String → Bool) (askString : String → String)
    (cs : List FSEntry) : List String :=
  (processDirs askBool (walkEntry "." (.dir "." cs))).1
    ++ processRootFiles askBool askString (list_md_files cs none)

/-- The generated Markdown artifacts of one run of `main` on a wiki root with
children `cs`.  (The viewer download/installation and `config.json` are
omitted: they produce no Markdown and do not feed the index/navigation
logic.) -/
structure MainResult where
  rootIndex : Option String
  indexWrites : List (String × String)
  navContent : Option String

/-- `main` (source lines 203-254): the root `index.md` is created whenever
absent (line 204, `create_index('.', wiki_title, included_md_files)`); when
`navigation.md` is absent the walk creates the per-directory indexes, builds
the navigation buffer and writes `navigation.md`. -/
def mainRun (askBool : String → Bool) (askString : String → String)
    (cs : List FSEntry) : MainResult :=
  let rootIndex :=
    if !(hasFileNamed "index.md" cs) then
      some (create_index_content "." cs (some wiki_title) (some included_md_files))
    else none
  if !(hasFileNamed "navigation.md" cs) then
    { rootIndex := rootIndex
      indexWrites := (processDirs askBool (walkEntry "." (.dir "." cs))).2
      navContent := some (create_navigation_content
        (mainWriteBuffer askBool askString cs) none none) }
  else
    { rootIndex := rootIndex, indexWrites := [], navContent := none }

/-! ### Helper lemmas for the walker -/

theorem walkTops_append (p : String) (l1 l2 : List FSEntry) :
    walkTops p (l1 ++ l2) = walkTops p l1 ++ walkTops p l2 := by
  induction l1 with
  | nil => simp [walkTops]
  | cons e es ih =>
    cases e with
    | file n => simpa [walkTops] using ih
    | dir n gcs => simp [walkTops, ih]

theorem processDirs_append (a : String → Bool)
    (L1 L2 : List (String × String × List FSEntry)) :
    processDirs a (L1 ++ L2)
      = ((processDirs a L1).1 ++ (processDirs a L2).1,
         (processDirs a L1).2 ++ (processDirs a L2).2) := by
  induction L1 with
  | nil => simp [processDirs]
  | cons h rest ih =>
    obtain ⟨root, d, gcs⟩ := h
    by_cases hmd : is_md_dir true (.dir d gcs) = true
    · simp only [List.cons_append, processDirs, hmd, if_true, ih]
      by_cases hdep : (depthOf (joinPath root d) == 1 && a (navPromptDir d)) = true
        <;> by_cases hidx : (!(hasFileNamed "index.md" gcs)) = true
        <;> simp [hdep, hidx, ih]
    · simp only [List.cons_append, processDirs, hmd]
      simpa using ih

theorem depthOf_joinPath_dot (d : String) (h : '/' ∉ d.data) :
    depthOf (joinPath "." d) = 1 := by
  have hd : (joinPath "." d).data = '.' :: '/' :: d.data := by
    show (("." ++ "/") ++ d).data = _
    rw [String.data_append]
    rfl
  rw [depthOf, hd, pySplitChar, if_neg (by decide), pySplitChar, if_pos rfl,
    pySplitChar_no_sep _ _ _ h]
  rfl

theorem join_foldl_acc (l : List String) (acc : String) :
    l.foldl (fun r s => r ++ s) acc = acc ++ String.join l := by
  induction l generalizing acc with
  | nil => simp [String.join]
  | cons s l ih =>
    rw [List.foldl_cons, ih]
    conv_rhs => rw [String.join, List.foldl_cons, ih]
    rw [show ("" : String) ++ s = s from rfl, String.append_assoc]

theorem strJoin_append (l1 l2 : List String) :
    String.join (l1 ++ l2) = String.join l1 ++ String.join l2 := by
  rw [String.join, List.foldl_append, join_foldl_acc]
  rfl

theorem strJoin_cons (s : String) (l : List String) :
    String.join (s :: l) = s ++ String.join l := by
  rw [String.join, List.foldl_cons, join_foldl_acc]
  rfl

/-- Claim C3: navigation-buffer entries are appended in filesystem
enumeration order (walk order), never sorted: for two accepted depth-1
Markdown directories enumerated in order `beta` then `alpha`, the buffer —
and hence `navigation.md` — lists `beta`'s entry before `alpha`'s, even
though per-directory `index.md` listings are sorted. -/
theorem claim_C3_nav_enumeration_order (askB : String → Bool)
    (askS : String → String) (l1 l2 l3 bs asl : List FSEntry)
    (beta alpha : String)
    (hb : is_md_dir true (.dir beta bs) = true)
    (ha : is_md_dir true (.dir alpha asl) = true)
    (hbs : '/' ∉ beta.data) (has : '/' ∉ alpha.data)
    (hab : askB (navPromptDir beta) = true)
    (haa : askB (navPromptDir alpha) = true)
    (hnav : hasFileNamed "navigation.md"
      (l1 ++ .dir beta bs :: (l2 ++ .dir alpha asl :: l3)) = false) :
    (∃ B1 B2 B3,
      mainWriteBuffer askB askS (l1 ++ .dir beta bs :: (l2 ++ .dir alpha asl :: l3))
        = B1 ++ dirNavEntry beta :: (B2 ++ dirNavEntry alpha :: B3))
    ∧ ∃ s1 s2 s3,
        (mainRun askB askS (l1 ++ .dir beta bs :: (l2 ++ .dir alpha asl :: l3))).navContent
          = some (s1 ++ ((dirNavEntry beta ++ "\n")
              ++ (s2 ++ ((dirNavEntry alpha ++ "\n") ++ s3)))) := by
  have dbeta : depthOf (joinPath "." beta) = 1 := depthOf_joinPath_dot beta hbs
  have dalpha : depthOf (joinPath "." alpha) = 1 := depthOf_joinPath_dot alpha has
  have hbuf : mainWriteBuffer askB askS (l1 ++ .dir beta bs :: (l2 ++ .dir alpha asl :: l3))
      = (processDirs askB (walkTops "." l1)).1
        ++ dirNavEntry beta ::
          ((processDirs askB (walkTops "." l2)).1
            ++ dirNavEntry alpha ::
              ((processDirs askB (walkTops "." l3)).1
                ++ ((processDirs askB (walkChildren "."
                      (l1 ++ .dir beta bs :: (l2 ++ .dir alpha asl :: l3)))).1
                  ++ processRootFiles askB askS
                      (list_md_files (l1 ++ .dir beta bs :: (l2 ++ .dir alpha asl :: l3)) none)))) := by
    rw [mainWriteBuffer, walkEntry]
    simp only [walkTops_append, walkTops, processDirs_append, processDirs,
      hb, ha, dbeta, dalpha, hab, haa, if_true, beq_self_eq_true,
      Bool.and_self, Bool.true_and, Bool.and_true]
    simp [List.append_assoc]
  refine ⟨⟨_, _, _, hbuf⟩, ?_⟩
  have hrun : (mainRun askB askS (l1 ++ .dir beta bs :: (l2 ++ .dir alpha asl :: l3))).navContent
      = some (create_navigation_content
          (mainWriteBuffer askB askS (l1 ++ .dir beta bs :: (l2 ++ .dir alpha asl :: l3)))
          none none) := by
    rw [mainRun, hnav]
    rfl
  rw [hrun, hbuf, create_navigation_content]
  refine ⟨"# " ++ wiki_title ++ "\n\n"
      ++ String.join ((processDirs askB (walkTops "." l1)).1.map
        fun item => item ++ "\n"),
    String.join ((processDirs askB (walkTops "." l2)).1.map fun item => item ++ "\n"),
    String.join (((processDirs askB (walkTops "." l3)).1
        ++ ((processDirs askB (walkChildren "."
              (l1 ++ .dir beta bs :: (l2 ++ .dir alpha asl :: l3)))).1
          ++ processRootFiles askB askS
              (list_md_files (l1 ++ .dir beta bs :: (l2 ++ .dir alpha asl :: l3)) none))).map
        fun item => item ++ "\n")
      ++ ("\n[gimmick:Theme (inverse: false)](" ++ (default_theme ++ (")\n"
        ++ "[gimmick:ThemeChooser](Change theme)"))), ?_⟩
  simp only [List.map_append, List.map_cons, strJoin_append, strJoin_cons]
  simp [String.append_assoc]

theorem claim_C2_witness :
    (∀ f ∈ create_index_filelist
        [.dir "notes" [.file "b.md"], .file "a.md", .file "README.md"]
        ["README.md"], '/' ∉ f.data)
    ∧ create_index_content "."
        [.dir "notes" [.file "b.md"], .file "a.md", .file "README.md"]
        (some "My Wiki") (some ["README.md"])
      = specIndexRender "My Wiki"
          (create_index_dirlist
            [.dir "notes" [.file "b.md"], .file "a.md", .file "README.md"]
            ["README.md"])
          (create_index_filelist
            [.dir "notes" [.file "b.md"], .file "a.md", .file "README.md"]
            ["README.md"]) :=
  ⟨by decide, (claim_C2_create_index_render "." "My Wiki"
    [.dir "notes" [.file "b.md"], .file "a.md", .file "README.md"]
    ["README.md"] (by decide)).1⟩

theorem claim_C3_witness :
    (is_md_dir true (.dir "beta" [FSEntry.file "b.md"]) = true)
    ∧ (is_md_dir true (.dir "alpha" [FSEntry.file "a.md"]) = true)
    ∧ ('/' ∉ ("beta" : String).data)
    ∧ ('/' ∉ ("alpha" : String).data)
    ∧ ((fun _ : String => true) (navPromptDir "beta") = true)
    ∧ ((fun _ : String => true) (navPromptDir "alpha") = true)
    ∧ (hasFileNamed "navigation.md"
        ([] ++ FSEntry.dir "beta" [FSEntry.file "b.md"]
          :: ([] ++ FSEntry.dir "alpha" [FSEntry.file "a.md"] :: [])) = false)
    ∧ ((∃ B1 B2 B3,
        mainWriteBuffer (fun _ => true) (fun _ => "")
          ([] ++ FSEntry.dir "beta" [FSEntry.file "b.md"]
            :: ([] ++ FSEntry.dir "alpha" [FSEntry.file "a.md"] :: []))
          = B1 ++ dirNavEntry "beta" :: (B2 ++ dirNavEntry "alpha" :: B3))
      ∧ ∃ s1 s2 s3,
          (mainRun (fun _ => true) (fun _ => "")
            ([] ++ FSEntry.dir "beta" [FSEntry.file "b.md"]
              :: ([] ++ FSEntry.dir "alpha" [FSEntry.file "a.md"] :: []))).navContent
            = some (s1 ++ ((dirNavEntry "beta" ++ "\n")
                ++ (s2 ++ ((dirNavEntry "alpha" ++ "\n") ++ s3))))) :=
  ⟨by decide, by decide, by decide, by decide, rfl, rfl, by decide,
    claim_C3_nav_enumeration_order (fun _ => true) (fun _ => "") [] [] []
      [FSEntry.file "b.md"] [FSEntry.file "a.md"] "beta" "alpha"
      (by decide) (by decide) (by decide) (by decide) rfl rfl (by decide)⟩

/-- Claim C4, counterexample: the run generates a root `index.md` even when
the whole tree contains zero Markdown files — `main` creates the root index
whenever `index.md` is absent (source line 204), with no Markdown check, so
the invariant fails at the wiki root. -/
theorem claim_C4_counterexample :
    hasMdFileList [FSEntry.file "a.txt"] = false
    ∧ (mainRun (fun _ => true) (fun _ => "") [FSEntry.file "a.txt"]).rootIndex
        = some "# My Wiki\n\n" := by
  decide

/-- Claim C4, amended: every directory *strictly below the wiki root*
processed by the walk whose subtree contains zero Markdown files is a no-op
of the walk body (`continue`, source line 221): it receives no generated
`index.md` and contributes no navigation entry.  (The root itself, by
contrast, receives a generated `index.md` whenever one is absent, regardless
of content — see the counterexample.) -/
theorem claim_C4_no_index_for_mdless_dirs (askB : String → Bool)
    (L1 L2 : List (String × String × List FSEntry)) (root d : String)
    (gcs : List FSEntry) (h : hasMdFileList gcs = false) :
    processDirs askB (L1 ++ (root, d, gcs) :: L2) = processDirs askB (L1 ++ L2) := by
  have hmd : is_md_dir true (.dir d gcs) = false := by
    rw [is_md_dir_rec_eq_hasMd, h]
  rw [processDirs_append, processDirs_append]
  have hc : processDirs askB ((root, d, gcs) :: L2) = processDirs askB L2 := by
    simp [processDirs, hmd]
  rw [hc]

theorem claim_C4_witness :
    hasMdFileList ([FSEntry.file "x.txt"] : List FSEntry) = false
    ∧ processDirs (fun _ => true)
        ([] ++ (".", "empty", [FSEntry.file "x.txt"]) :: [])
      = processDirs (fun _ => true) ([] ++ []) :=
  ⟨by decide,
    claim_C4_no_index_for_mdless_dirs (fun _ => true) [] [] "." "empty"
      [FSEntry.file "x.txt"] (by decide)⟩

/-- Claim C10: for an accepted root Markdown file the default display title
is `os.path.splitext(f)[0].title()` — the title-cased stem with underscores
preserved (`my_notes.md` defaults to `My_Notes`, not `titlify`'s
`My Notes`); if the operator rejects the default name the title is exactly
the string returned by the string prompt; the target is the bare file name.
Depth-1 directory entries always use `titlify(dirName)` with no rename
prompt. -/
theorem claim_C10_rootfile_nav_title (askB : String → Bool)
    (askS : String → String) (f : String) (rest : List String)
    (haccept : askB (navPromptFile f) = true) :
    processRootFiles askB askS (f :: rest)
      = ("[" ++ (if askB (namePrompt (pyTitle (splitextStem f)))
            then pyTitle (splitextStem f) else askS "Enter name")
          ++ "](" ++ f ++ ")") :: processRootFiles askB askS rest
    ∧ (askB (namePrompt (pyTitle (splitextStem f))) = false →
        processRootFiles askB askS (f :: rest)
          = ("[" ++ askS "Enter name" ++ "](" ++ f ++ ")")
            :: processRootFiles askB askS rest)
    ∧ pyTitle (splitextStem "my_notes.md") = "My_Notes"
    ∧ titlify "my_notes" = "My Notes"
    ∧ ∀ d, dirNavEntry d = "[" ++ titlify d ++ "](" ++ d ++ "/index.md)" := by
  refine ⟨?_, ?_, by decide, by decide, fun d => rfl⟩
  · simp [processRootFiles, haccept]
  · intro hrej
    simp [processRootFiles, haccept, hrej]

theorem claim_C10_witness :
    ((fun _ : String => true) (navPromptFile "my_notes.md") = true)
    ∧ processRootFiles (fun _ => true) (fun _ => "X") ["my_notes.md"]
        = ("[" ++ (if (fun _ : String => true)
              (namePrompt (pyTitle (splitextStem "my_notes.md")))
            then pyTitle (splitextStem "my_notes.md")
            else (fun _ : String => "X") "Enter name")
          ++ "](" ++ "my_notes.md" ++ ")")
          :: processRootFiles (fun _ => true) (fun _ => "X") [] :=
  ⟨rfl, (claim_C10_rootfile_nav_title (fun _ => true) (fun _ => "X")
    "my_notes.md" [] rfl).1⟩

/-! ## Error behaviour of the classifier (claims C5, C9)

The source reads directories in two ways.  `os.listdir` raises
(`NotADirectoryError` on a non-directory, `PermissionError` on an unreadable
directory).  `os.walk` is used with its default `onerror=None`: the
`scandir` error raised for an unreadable directory is passed to `onerror`
and *ignored*, so the unreadable subtree is silently skipped and the walk
continues.  `is_md_dir` first runs `assert os.path.isdir(path)`, which
raises `AssertionError` (not `NotADirectoryError`) on a non-directory. -/

/-- The Python exceptions relevant to the classifier. -/
inductive PyErr : Type where
  | assertionError
  | notADirectoryError
  | permissionError
deriving DecidableEq

/-- A filesystem entry with failure modelling: directories carry a
readability flag (`false` = listing it raises `PermissionError`). -/
inductive FSEntryE : Type where
  | file : String → FSEntryE
  | dir : String → Bool → List FSEntryE → FSEntryE

/-- `os.path.isdir` (a `stat` through the readable parent, so readability of
the entry itself does not matter). -/
def FSEntryE.isDir : FSEntryE → Bool
  | .file _ => false
  | .dir _ _ _ => true

/-- `os.listdir`: raises `NotADirectoryError` on a non-directory and
`PermissionError` on an unreadable directory. -/
def listdirE : FSEntryE → Except PyErr (List FSEntryE)
  | .file _ => .error .notADirectoryError
  | .dir _ true cs => .ok cs
  | .dir _ false _ => .error .permissionError

/-- `is_md_file` over entries with failure modelling. -/
def is_md_fileE : FSEntryE → Bool
  | .file n => is_md_name n
  | .dir _ _ _ => false

/-- The non-directory children of one triple. -/
def topFileNamesE (cs : List FSEntryE) : List String :=
  cs.filterMap fun e => match e with
    | .file n => some n
    | .dir _ _ _ => none

mutual

/-- The `files` components of the `os.walk` triples with the default
`onerror=None`: listing an unreadable directory fails, the error is ignored,
and that subtree yields nothing. -/
def walkFilesE : FSEntryE → List (List String)
  | .file _ => []
  | .dir _ false _ => []
  | .dir _ true cs => topFileNamesE cs :: walkFilesListE cs

/-- The walk's recursion into the children. -/
def walkFilesListE : List FSEntryE → List (List String)
  | [] => []
  | e :: es => walkFilesE e ++ walkFilesListE es

end

/-- `is_md_dir` from the source (lines 111-125) with failure modelling:
`assert os.path.isdir(path)` raises `AssertionError` on a non-directory;
recursive mode scans the `os.walk` triples (which swallow read errors);
non-recursive mode iterates `os.listdir(path)`, whose errors propagate. -/
def is_md_dir_checked (recursive : Bool) : FSEntryE → Except PyErr Bool
  | .file _ => .error .assertionError
  | .dir n r cs =>
    if recursive then
      .ok ((walkFilesE (.dir n r cs)).any fun files => files.any is_md_name)
    else
      match listdirE (.dir n r cs) with
      | .error err => .error err
      | .ok l => .ok (l.any is_md_fileE)

mutual

/-- Markdown file reachable through readable directories only (what the
error-swallowing walk can see). -/
def reachMdE : FSEntryE → Bool
  | .file n => is_md_name n
  | .dir _ false _ => false
  | .dir _ true cs => reachMdListE cs

/-- Reachable-Markdown predicate on children lists. -/
def reachMdListE : List FSEntryE → Bool
  | [] => false
  | e :: es => reachMdE e || reachMdListE es

end

mutual

/-- Markdown file anywhere in the subtree, behind unreadable directories
included. -/
def hasMdE : FSEntryE → Bool
  | .file n => is_md_name n
  | .dir _ _ cs => hasMdListE cs

/-- Subtree-Markdown predicate on children lists. -/
def hasMdListE : List FSEntryE → Bool
  | [] => false
  | e :: es => hasMdE e || hasMdListE es

end

theorem walkE_md_eq_reach (cs : List FSEntryE) :
    ((topFileNamesE cs).any is_md_name
      || (walkFilesListE cs).any fun files => files.any is_md_name)
      = reachMdListE cs := by
  match cs with
  | [] => simp [topFileNamesE, walkFilesListE, reachMdListE]
  | .file m :: es =>
    have ih := walkE_md_eq_reach es
    simp only [topFileNamesE, List.filterMap_cons, walkFilesListE, walkFilesE,
      List.nil_append, reachMdListE, reachMdE, List.any_cons] at *
    rw [Bool.or_assoc, ih]
  | .dir m false gcs :: es =>
    have ih := walkE_md_eq_reach es
    simp only [topFileNamesE, List.filterMap_cons, walkFilesListE, walkFilesE,
      List.nil_append, reachMdListE, reachMdE, List.any_cons] at *
    simpa using ih
  | .dir m true gcs :: es =>
    have ih₁ := walkE_md_eq_reach gcs
    have ih₂ := walkE_md_eq_reach es
    simp only [topFileNamesE, List.filterMap_cons, walkFilesListE, walkFilesE,
      reachMdListE, reachMdE, List.any_cons, List.any_append] at *
    rw [← ih₁, ← ih₂]
    ac_rfl
termination_by sizeOf cs

/-- Claim C5, counterexample: an unreadable subdirectory encountered during
recursive classification is *not* propagated: `os.walk`'s default error
handler ignores it, the subtree (which here contains the only Markdown file)
is silently skipped, and the call returns `ok false` instead of aborting. -/
theorem claim_C5_counterexample :
    is_md_dir_checked true
        (.dir "top" true [.dir "secret" false [.file "a.md"]])
      = .ok false
    ∧ hasMdE (.dir "top" true [.dir "secret" false [.file "a.md"]]) = true := by
  exact ⟨rfl, by decide⟩

/-- Claim C5, amended: only the direct `os.listdir` reads propagate their
failure (non-recursive classification of an unreadable directory raises
`PermissionError`); the `os.walk`-based recursive classification never
raises on a directory input — unreadable subtrees are silently skipped, and
the result is Markdown-reachability through readable directories only. -/
theorem claim_C5_error_propagation :
    (∀ (n : String) (cs : List FSEntryE),
      is_md_dir_checked false (.dir n false cs) = .error .permissionError)
    ∧ ∀ (n : String) (r : Bool) (cs : List FSEntryE),
        is_md_dir_checked true (.dir n r cs) = .ok (reachMdE (.dir n r cs)) := by
  constructor
  · intro n cs
    rfl
  · intro n r cs
    cases r
    · rfl
    · show Except.ok _ = _
      rw [walkFilesE]
      show Except.ok ((topFileNamesE cs).any is_md_name
        || (walkFilesListE cs).any fun files => files.any is_md_name) = _
      rw [walkE_md_eq_reach]
      rfl

/-- Claim C9, counterexample: on a non-directory input `is_md_dir` fails via
`assert os.path.isdir(path)`, i.e. with `AssertionError`, not with
`NotADirectoryError` as claimed. -/
theorem claim_C9_counterexample :
    is_md_dir_checked true (.file "a.txt") = .error .assertionError
    ∧ is_md_dir_checked true (.file "a.txt") ≠ .error .notADirectoryError := by
  refine ⟨rfl, fun h => ?_⟩
  rw [show is_md_dir_checked true (.file "a.txt") = .error .assertionError
    from rfl] at h
  exact PyErr.noConfusion (Except.error.inj h)

/-- Claim C9, amended: for every path that is not a directory, `is_md_dir`
(in either mode) fails — with `AssertionError` from the `assert`, an
uncaught, fatal exception — rather than returning a value. -/
theorem claim_C9_not_a_dir_asserts (recursive : Bool) (name : String) :
    is_md_dir_checked recursive (.file name) = .error .assertionError := rfl

/-- Claim C8 (code bug): the walk calls `create_index(dirpath, title)` with
no ignore list (source line 239, marked `# Todo: add ignored files`), so a
subdirectory's generated index lists `README.md` — an IgnoreSet member — as
a Page, although the root index and the navigation candidacy do apply the
ignore set (third conjunct: `list_md_files` with its default ignore list
excludes `README.md` while keeping `a.md`). -/
theorem claim_C8_subdir_index_lists_ignored_files :
    (mainRun (fun _ => true) (fun _ => "")
        [.dir "notes" [.file "README.md", .file "a.md"]]).indexWrites
      = [("./notes", "# Notes\n\n- [Readme](README.md)\n- [A](a.md)\n")]
    ∧ create_index_filelist [.file "README.md", .file "a.md"] []
        = ["README.md", "a.md"]
    ∧ list_md_files [.file "README.md", .file "a.md"] none = ["a.md"] := by
  decide
